import Mathlib

/-!
Shallow embedding of the aoc-timeline program (src/main.rs) and proofs about
its cache, timeline-reconstruction, scoring and formatting logic.

Rust `HashMap`s are modelled as association lists (`List (key × value)`) with
first-occurrence-wins lookup, which matches `HashMap` semantics (keys are
unique in a real map, so the first match is the only match).  Iteration order
of a `HashMap`, which Rust leaves unspecified per instance, is the list order
of the association list.  Machine integers (`i32`, `i64`, `u32`, `usize`)
are modelled as `Int` / `Nat`; the one place the program can underflow
(`*e -= 1` on a `usize`) is modelled as an explicit `Option` failure so that
its unreachability can be proved.  Code paths that `panic!`/`unwrap` on `None`
are modelled as `Option.none` results.
-/

namespace AocTimeline

/-- Association-list model of Rust `HashMap` lookup: first matching key wins. -/
def lookupKey {α β : Type} [DecidableEq α] (k : α) : List (α × β) → Option β
  | [] => none
  | p :: t => if p.1 = k then some p.2 else lookupKey k t

/-- Model of an in-place `HashMap` update (`and_modify`): apply `f` to the value
of the first occurrence of key `k`. -/
def updateFirst {α β : Type} [DecidableEq α] (k : α) (f : β → β) : List (α × β) → List (α × β)
  | [] => []
  | p :: t => if p.1 = k then (p.1, f p.2) :: t else p :: updateFirst k f t

/-- Model of `HashMap::insert`: replace the existing entry for `k` or add a new one. -/
def alInsert {α β : Type} [DecidableEq α] (k : α) (v : β) : List (α × β) → List (α × β)
  | [] => [(k, v)]
  | p :: t => if p.1 = k then (k, v) :: t else p :: alInsert k v t

/-! ## Data model (structs from src/main.rs) -/

/-- `struct Star { get_star_ts: i64 }` -/
structure Star where
  get_star_ts : Int
  deriving DecidableEq, Repr

/-- `struct Member` from src/main.rs.  `completion_day_level` is the
`HashMap<u32, HashMap<u32, Star>>` of day number to star number to completion. -/
structure Member where
  name : Option String
  stars : Int
  id : Int
  last_star_ts : Int
  local_score : Int
  completion_day_level : List (Nat × List (Nat × Star))
  deriving DecidableEq, Repr

/-- `struct Aoc { event, owner_id, members }` -/
structure Aoc where
  event : String
  owner_id : Int
  members : List (String × Member)
  deriving DecidableEq, Repr

/-- `struct CacheEntry { timestamp, data }`; the timestamp is epoch seconds. -/
structure CacheEntry where
  timestamp : Int
  data : Aoc
  deriving DecidableEq, Repr

/-- `type Cache = HashMap<i32, CacheEntry>` -/
abbrev Cache := List (Int × CacheEntry)

/-- `struct Report { timestamp, elapsed, member, star }`.  Instants are epoch
seconds (`DateTime` differences are therefore plain `Int` subtraction); the
star field is the formatted star key string. -/
structure Report where
  timestamp : Int
  elapsed : Int
  member : String
  star : String
  deriving DecidableEq, Repr

/-! ## Snapshot cache: `get_json` -/

/-- Result of one `get_json` run: whether the cached snapshot was returned
(without invoking the fetcher), the returned snapshot, and the cache mapping
written back to disk (`none` when no write happens). -/
structure GetResult where
  fromCache : Bool
  result : Aoc
  written : Option Cache
  deriving DecidableEq, Repr

/-- Embedding of `get_json`.  `file` models the on-disk cache file: `none` if
the file does not exist, `some none` if it exists but fails to parse (the
source then panics on `.unwrap()`, modelled as result `none`), `some (some c)`
if it parses to cache `c`.  `now` is `Local::now()` in epoch seconds, and
`fetched` is the snapshot a successful network fetch would return (the
fetch-failure path calls `std::process::exit` and returns nothing).
15 minutes = 900 seconds. -/
def get_json (leaderbord : Int) (flush_cache : Bool) (file : Option (Option Cache))
    (now : Int) (fetched : Aoc) : Option GetResult :=
  match flush_cache, file with
  | false, some parsed =>
    match parsed with
    | none => none
    | some cache =>
      match lookupKey leaderbord cache with
      | some entry =>
        if entry.timestamp + 900 > now then
          some { fromCache := true, result := entry.data, written := none }
        else
          some { fromCache := false, result := fetched,
                 written := some (alInsert leaderbord ⟨now, fetched⟩ cache) }
      | none =>
        some { fromCache := false, result := fetched,
               written := some (alInsert leaderbord ⟨now, fetched⟩ cache) }
  | _, _ =>
    some { fromCache := false, result := fetched,
           written := some (alInsert leaderbord ⟨now, fetched⟩ []) }

/-! ## Duration formatter: `duration_string` -/

/-- Rust `format!` two-digit zero padding of a value in `0..60`. -/
def pad2 (n : Int) : String :=
  if 0 ≤ n ∧ n < 10 then "0" ++ toString n else toString n

/-- chrono `Duration::num_days`, with the duration modelled as a signed
nanosecond count; Rust division truncates toward zero. -/
def num_days (d : Int) : Int := d.tdiv 86400000000000

/-- chrono `Duration::num_hours`. -/
def num_hours (d : Int) : Int := d.tdiv 3600000000000

/-- chrono `Duration::num_minutes`. -/
def num_minutes (d : Int) : Int := d.tdiv 60000000000

/-- chrono `Duration::num_seconds`. -/
def num_seconds (d : Int) : Int := d.tdiv 1000000000

/-- Embedding of `duration_string` from src/main.rs; `%` is Rust's truncated
remainder (`Int.tmod`). -/
def duration_string (d : Int) : String :=
  if num_days d > 0 then
    toString (num_days d) ++ "d " ++ toString ((num_hours d).tmod 24) ++ ":" ++
      pad2 ((num_minutes d).tmod 60) ++ ":" ++ pad2 ((num_seconds d).tmod 60)
  else if num_hours d > 0 then
    toString (num_hours d) ++ ":" ++ pad2 ((num_minutes d).tmod 60) ++ ":" ++
      pad2 ((num_seconds d).tmod 60)
  else
    pad2 ((num_minutes d).tmod 60) ++ ":" ++ pad2 ((num_seconds d).tmod 60)

/-! ## Timeline reconstruction: `timeline` -/

/-- `const YEAR: i32 = 2025` -/
def YEAR : Int := 2025

/-- Epoch seconds of 2025-12-01 00:00:00 UTC. -/
def dec1_2025 : Int := 1764547200

/-- `Local.with_ymd_and_hms(YEAR, 12, d, 6, 0, 0)` as epoch seconds:
06:00 local time on December `d` of 2025, where `tz` is the observer's UTC
offset in seconds (local = UTC + tz). -/
def unlockInstant (tz : Int) (d : Nat) : Int :=
  dec1_2025 + ((d : Int) - 1) * 86400 + 21600 - tz

/-- Whether `Local.with_ymd_and_hms(2025, 12, d, 6, 0, 0).single()` is `Some`:
December has 31 days, so exactly the day numbers 1..=31 yield a valid instant
(on an invalid one the source's `.unwrap()` panics). -/
def validDecemberDay (d : Nat) : Bool := 1 ≤ d && d ≤ 31

/-- `format!("{:02}-{}", dayno, star)` two-digit day padding. -/
def fmt2 (n : Nat) : String :=
  if n < 10 then "0" ++ toString n else toString n

/-- The star key string `format!("{:02}-{}", dayno, star)`. -/
def starKey (d s : Nat) : String := fmt2 d ++ "-" ++ toString s

/-- The member label: the display name, or `format!("Anonymous#{}", id)`. -/
def memberLabel (m : Member) : String :=
  match m.name with
  | some n => n
  | none => "Anonymous#" ++ toString m.id

/-- The inner `for star in 1..=2` loop of `timeline`: emit one `Report` for
each star present in `day`, threading `start` (initially the unlock instant)
through as the previous solve time. -/
def starFold (label : String) (d : Nat) (day : List (Nat × Star)) :
    Int → List Nat → List Report
  | _, [] => []
  | start, s :: rest =>
    match lookupKey s day with
    | some st =>
      { timestamp := st.get_star_ts, elapsed := st.get_star_ts - start,
        member := label, star := starKey d s }
        :: starFold label d day st.get_star_ts rest
    | none => starFold label d day start rest

/-- The `for dayno in member.completion_day_level.keys().sorted()` loop for one
member: index the day map (a missing key would panic, hence `none`), compute
the unlock instant (panics — `none` — on an invalid date), and run the star
loop.  Returns the concatenated, not yet globally sorted, events. -/
def daysEvents (tz : Int) (m : Member) : List Nat → Option (List Report)
  | [] => some []
  | d :: rest =>
    match lookupKey d m.completion_day_level with
    | none => none
    | some day =>
      if validDecemberDay d then
        match daysEvents tz m rest with
        | none => none
        | some es =>
          some (starFold (memberLabel m) d day (unlockInstant tz d) [1, 2] ++ es)
      else none

/-- `member.completion_day_level.keys().sorted()`: the distinct keys of the
day map in ascending order (`HashMap` keys are unique; on the association-list
model `dedup` keeps the first occurrence, which is the one `lookupKey` sees). -/
def sortedKeys (m : List (Nat × List (Nat × Star))) : List Nat :=
  (List.insertionSort (fun a b => a ≤ b) (m.map Prod.fst)).dedup

/-- The outer `for member in members.values()` loop of `timeline`. -/
def membersEvents (tz : Int) : List Member → Option (List Report)
  | [] => some []
  | m :: rest =>
    match daysEvents tz m (sortedKeys m.completion_day_level) with
    | none => none
    | some es =>
      match membersEvents tz rest with
      | none => none
      | some l => some (es ++ l)

/-- The comparator of `timeline.sort_by(|a, b| a.timestamp.cmp(&b.timestamp))`. -/
def reportLE (a b : Report) : Prop := a.timestamp ≤ b.timestamp

instance : DecidableRel reportLE := fun a b => Int.decLe a.timestamp b.timestamp

instance : IsTotal Report reportLE := ⟨fun a b => Int.le_total a.timestamp b.timestamp⟩

instance : IsTrans Report reportLE := ⟨fun _ _ _ h1 h2 => le_trans h1 h2⟩

/-- Embedding of `timeline` from src/main.rs.  Rust's `sort_by` is a stable
sort; a stable sort by a total preorder is unique, so the stable
`insertionSort` computes the same list.  `none` models a panic inside the
loop (invalid day number). -/
def timeline (tz : Int) (members : List (String × Member)) : Option (List Report) :=
  match membersEvents tz (members.map Prod.snd) with
  | none => none
  | some l => some (List.insertionSort reportLE l)

/-! ## Scoring engine (the event loop of `report`) -/

/-- One `score.entry(star).and_modify(|e| *e -= 1).or_insert(max_score)`
followed by the read `score[&event.star]`: returns the assigned score and the
new score map.  Decrementing a `usize` that is `0` underflows (a panic in a
debug build), modelled as `none`. -/
def scoreStep (max_score : Nat) (st : List (String × Nat)) (key : String) :
    Option (Nat × List (String × Nat)) :=
  match lookupKey key st with
  | some v => if v = 0 then none else some (v - 1, updateFirst key (fun e => e - 1) st)
  | none => some (max_score, (key, max_score) :: st)

/-- `total_score.entry(member).and_modify(|e| *e += star_score).or_insert(star_score)`. -/
def totalsStep (totals : List (String × Nat)) (memberL : String) (s : Nat) :
    List (String × Nat) :=
  match lookupKey memberL totals with
  | some _ => updateFirst memberL (fun e => e + s) totals
  | none => (memberL, s) :: totals

/-- The `for event in timeline(..)` loop of `report`: pairs every event with
its assigned score and accumulates the per-member totals. -/
def reportLoop (max_score : Nat) :
    List Report → List (String × Nat) → List (String × Nat) →
    Option (List (Report × Nat) × List (String × Nat))
  | [], _, totals => some ([], totals)
  | e :: rest, score, totals =>
    match scoreStep max_score score e.star with
    | none => none
    | some (s, score2) =>
      match reportLoop max_score rest score2 (totalsStep totals e.member s) with
      | none => none
      | some (out, t) => some ((e, s) :: out, t)

/-- The reconstruction + scoring pipeline of `report` for one snapshot:
`max_score = aoc.members.len()`, then the scored timeline and the totals. -/
def reportRun (tz : Int) (members : List (String × Member)) :
    Option (List (Report × Nat) × List (String × Nat)) :=
  match timeline tz members with
  | none => none
  | some events => reportLoop members.length events [] []

/-! ## Concrete sample data, used to exhibit behaviour at specific inputs -/

/-- A small snapshot with no members. -/
def snapA : Aoc := { event := "2025", owner_id := 1, members := [] }

/-- A second small snapshot, distinct from `snapA`. -/
def snapB : Aoc := { event := "2025", owner_id := 2, members := [] }

/-- A fresh cache entry fetched at epoch second 100. -/
def entryA : CacheEntry := { timestamp := 100, data := snapA }

/-- A two-leaderboard cache: id 1 fetched at 50, id 2 fetched at 60. -/
def cacheAB : Cache := [(1, { timestamp := 50, data := snapA }), (2, { timestamp := 60, data := snapB })]

/-- A member whose completion map contains a day key 0 (an invalid date). -/
def day0Member : Member :=
  { name := some "X"
    stars := 1
    id := 3
    last_star_ts := 0
    local_score := 0
    completion_day_level := [(0, [(1, { get_star_ts := 1764590400 })])] }

/-- A member whose completion map contains day 26 (outside the competition
range 1–25 but a valid December date). -/
def day26Member : Member :=
  { name := some "Y"
    stars := 1
    id := 4
    last_star_ts := 0
    local_score := 0
    completion_day_level := [(26, [(1, { get_star_ts := 1766728860 })])] }

/-- A member who solved both stars of day 5. -/
def bothStarsMember : Member :=
  { name := some "Alice"
    stars := 2
    id := 1
    last_star_ts := 0
    local_score := 0
    completion_day_level := [(5, [(1, { get_star_ts := 1764915000 }), (2, { get_star_ts := 1764915900 })])] }

/-- An anonymous member who solved only star 1 of day 5. -/
def oneStarMember : Member :=
  { name := none
    stars := 1
    id := 42
    last_star_ts := 0
    local_score := 0
    completion_day_level := [(5, [(1, { get_star_ts := 1764914700 })])] }

/-- The member list of a two-member snapshot. -/
def twoMembers : List (String × Member) := [("1", bothStarsMember), ("42", oneStarMember)]

/-- The timeline the program produces for `twoMembers` in UTC (tz = 0):
day 5 unlocks at `unlockInstant 0 5 = 1764914400`. -/
def twoMembersEvents : List Report :=
  [{ timestamp := 1764914700, elapsed := 300, member := "Anonymous#42", star := "05-1" },
   { timestamp := 1764915000, elapsed := 600, member := "Alice", star := "05-1" },
   { timestamp := 1764915900, elapsed := 900, member := "Alice", star := "05-2" }]

/-! ## Association-list lemmas -/

@[simp] theorem lookupKey_nil {α β : Type} [DecidableEq α] (k : α) :
    lookupKey (β := β) k [] = none := rfl

@[simp] theorem lookupKey_cons {α β : Type} [DecidableEq α] (k : α) (p : α × β) (t : List (α × β)) :
    lookupKey k (p :: t) = if p.1 = k then some p.2 else lookupKey k t := rfl

theorem lookupKey_updateFirst_self {α β : Type} [DecidableEq α] (k : α) (f : β → β) :
    ∀ l : List (α × β), lookupKey k (updateFirst k f l) = (lookupKey k l).map f
  | [] => rfl
  | p :: t => by
    by_cases h : p.1 = k <;> simp [updateFirst, h, lookupKey_updateFirst_self k f t]

theorem lookupKey_updateFirst_ne {α β : Type} [DecidableEq α] {k k' : α} (f : β → β)
    (h : k' ≠ k) : ∀ l : List (α × β), lookupKey k' (updateFirst k f l) = lookupKey k' l
  | [] => rfl
  | p :: t => by
    by_cases hp : p.1 = k
    · subst hp
      simp [updateFirst, Ne.symm h]
    · simp only [updateFirst, if_neg hp, lookupKey_cons]
      by_cases hp' : p.1 = k' <;> simp [hp', lookupKey_updateFirst_ne f h t]

theorem lookupKey_alInsert_ne {α β : Type} [DecidableEq α] {k k' : α} (v : β)
    (h : k' ≠ k) : ∀ l : List (α × β), lookupKey k' (alInsert k v l) = lookupKey k' l
  | [] => by simp [alInsert, Ne.symm h]
  | p :: t => by
    by_cases hp : p.1 = k
    · subst hp
      simp [alInsert, Ne.symm h]
    · simp only [alInsert, if_neg hp, lookupKey_cons]
      by_cases hp' : p.1 = k' <;> simp [hp', lookupKey_alInsert_ne v h t]

/-! ## Claim C10: duration formatting -/

/-- Claim C10: the duration formatter produces the three spec shapes on the
spec's test vectors — `format(25h 3m 9s) = "1d 1:03:09"`,
`format(3m 9s) = "03:09"`, `format(1h 0m 5s) = "1:00:05"` — and truncates
sub-second parts (an extra 999999999 ns does not change the output). -/
theorem claim10_duration_format :
    duration_string (90189 * 1000000000) = "1d 1:03:09" ∧
    duration_string (189 * 1000000000) = "03:09" ∧
    duration_string (3605 * 1000000000) = "1:00:05" ∧
    duration_string (189 * 1000000000 + 999999999) = "03:09" := by
  refine ⟨by decide, by decide, by decide, by decide⟩

/-! ## Claim C4: cache freshness -/

/-- Claim C4: with `force_refresh` false, an existing cache file and an entry
for the requested leaderboard fetched strictly less than 15 minutes (900 s)
ago, `get_json` returns that entry's snapshot without fetching; when the
entry is 15+ minutes old, absent, the file is absent, or `force_refresh` is
true, the fetcher is invoked (result `fromCache = false`). -/
theorem claim4_cache_freshness (lb : Int) (flush : Bool) (file : Option (Option Cache))
    (now : Int) (fetched : Aoc) :
    (∀ cache entry, flush = false → file = some (some cache) →
      lookupKey lb cache = some entry → now < entry.timestamp + 900 →
      get_json lb flush file now fetched =
        some { fromCache := true, result := entry.data, written := none }) ∧
    (∀ cache entry, flush = false → file = some (some cache) →
      lookupKey lb cache = some entry → entry.timestamp + 900 ≤ now →
      get_json lb flush file now fetched =
        some { fromCache := false, result := fetched,
               written := some (alInsert lb ⟨now, fetched⟩ cache) }) ∧
    (∀ cache, flush = false → file = some (some cache) → lookupKey lb cache = none →
      get_json lb flush file now fetched =
        some { fromCache := false, result := fetched,
               written := some (alInsert lb ⟨now, fetched⟩ cache) }) ∧
    (flush = true → get_json lb flush file now fetched =
        some { fromCache := false, result := fetched, written := some [(lb, ⟨now, fetched⟩)] }) ∧
    (file = none → get_json lb flush file now fetched =
        some { fromCache := false, result := fetched, written := some [(lb, ⟨now, fetched⟩)] }) := by
  refine ⟨?_, ?_, ?_, ?_, ?_⟩
  · intro cache entry hfl hfi hl hfr
    subst hfl; subst hfi
    simp only [get_json, hl]
    rw [if_pos hfr]
  · intro cache entry hfl hfi hl hst
    subst hfl; subst hfi
    simp only [get_json, hl]
    rw [if_neg (not_lt.mpr hst)]
  · intro cache hfl hfi hl
    subst hfl; subst hfi
    simp only [get_json, hl]
  · intro hfl
    subst hfl
    cases file with
    | none => rfl
    | some p => rfl
  · intro hfi
    subst hfi
    cases flush <;> rfl

/-- Witness for C4 at a concrete input: an entry fetched at second 100 is
still fresh at second 500 and is returned from the cache. -/
theorem claim4_witness :
    (500 : Int) < entryA.timestamp + 900 ∧
    get_json 7 false (some (some [(7, entryA)])) 500 snapB =
      some { fromCache := true, result := entryA.data, written := none } :=
  ⟨by decide,
   (claim4_cache_freshness 7 false (some (some [(7, entryA)])) 500 snapB).1
     [(7, entryA)] entryA rfl rfl (by decide) (by decide)⟩

/-! ## Claim C5: preservation of other cache entries (corrected) -/

/-- Counterexample to C5 as stated: with `force_refresh = true` the code
starts from an *empty* in-memory cache, so after refreshing leaderboard 1 the
written mapping has lost the entry for leaderboard 2 that the on-disk cache
held. -/
theorem claim5_counterexample :
    get_json 1 true (some (some cacheAB)) 1000 snapA =
      some { fromCache := false, result := snapA,
             written := some [(1, { timestamp := 1000, data := snapA })] } ∧
    lookupKey 2 cacheAB = some { timestamp := 60, data := snapB } ∧
    lookupKey (β := CacheEntry) 2 [(1, { timestamp := 1000, data := snapA })] = none := by
  refine ⟨by decide, by decide, by decide⟩

/-- Claim C5 (amended): when `force_refresh` is false and the cache file
parses, every entry for a leaderboard id other than the refreshed one is
preserved unchanged in the written mapping; when `force_refresh` is true the
written mapping contains only the refreshed leaderboard (other entries are
dropped). -/
theorem claim5_other_entries (lb k : Int) (file : Option (Option Cache)) (now : Int)
    (fetched : Aoc) (r : GetResult) (w : Cache) (hk : k ≠ lb) :
    (∀ cache, get_json lb false (some (some cache)) now fetched = some r →
      r.written = some w → lookupKey k w = lookupKey k cache) ∧
    (get_json lb true file now fetched = some r → r.written = some w →
      lookupKey k w = none) := by
  constructor
  · intro cache hrun hw
    simp only [get_json] at hrun
    cases hl : lookupKey lb cache with
    | some entry =>
      simp only [hl] at hrun
      by_cases hfr : entry.timestamp + 900 > now
      · rw [if_pos hfr] at hrun
        cases hrun
        simp at hw
      · rw [if_neg hfr] at hrun
        cases hrun
        cases hw
        exact lookupKey_alInsert_ne _ hk cache
    | none =>
      simp only [hl] at hrun
      cases hrun
      cases hw
      exact lookupKey_alInsert_ne _ hk cache
  · intro hrun hw
    have : get_json lb true file now fetched =
        some { fromCache := false, result := fetched, written := some [(lb, ⟨now, fetched⟩)] } := by
      cases file with
      | none => rfl
      | some p => rfl
    rw [this] at hrun
    cases hrun
    cases hw
    simp [Ne.symm hk]

/-- Witness for the amended C5 at a concrete input: refreshing leaderboard 1
with `force_refresh = false` keeps leaderboard 2's entry intact. -/
theorem claim5_witness :
    (2 : Int) ≠ 1 ∧
    lookupKey 2 [(1, CacheEntry.mk 1000 snapA), (2, CacheEntry.mk 60 snapB)] =
      lookupKey 2 cacheAB :=
  ⟨by decide,
   (claim5_other_entries 1 2 none 1000 snapA
      { fromCache := false, result := snapA,
        written := some [(1, CacheEntry.mk 1000 snapA), (2, CacheEntry.mk 60 snapB)] }
      [(1, CacheEntry.mk 1000 snapA), (2, CacheEntry.mk 60 snapB)] (by decide)).1
     cacheAB (by decide) rfl⟩

/-! ## Claim C6: corrupt cache handling (code bug) -/

/-- Claim C6 fails on the code: if the cache file exists but cannot be parsed,
`serde_json::from_str(..).unwrap()` panics, so the run aborts instead of
treating the corrupt cache as empty and fetching. -/
theorem claim6_corrupt_cache_panics :
    get_json 1 false (some none) 0 snapA = none := rfl

/-! ## Claim C7: out-of-range day handling (code bug) -/

/-- Claim C7 fails on the code: a day key of 0 makes
`Local.with_ymd_and_hms(..).single().unwrap()` panic, aborting the whole run
(nothing is skipped), while day 26 — also outside the competition range
1–25 — is a valid December date and is processed normally rather than
rejected. -/
theorem claim7_invalid_day_not_skipped :
    timeline 0 [("3", day0Member)] = none ∧
    timeline 0 [("4", day26Member)] =
      some [{ timestamp := 1766728860, elapsed := 60, member := "Y", star := "26-1" }] := by
  refine ⟨by decide, by decide⟩

/-! ## Claim C2: global ordering -/

/-- Claim C2: whenever `timeline` returns an event sequence, that sequence is
sorted non-decreasing by timestamp. -/
theorem claim2_timeline_sorted (tz : Int) (members : List (String × Member))
    (events : List Report) (h : timeline tz members = some events) :
    events.Pairwise (fun a b => a.timestamp ≤ b.timestamp) := by
  unfold timeline at h
  cases hm : membersEvents tz (members.map Prod.snd) with
  | none => simp only [hm] at h; cases h
  | some l =>
    simp only [hm] at h
    cases h
    exact (List.sorted_insertionSort reportLE l).imp (fun hab => hab)

/-- Witness for C2: the concrete two-member snapshot produces the concrete
event list, which is sorted by timestamp. -/
theorem claim2_witness :
    timeline 0 twoMembers = some twoMembersEvents ∧
    twoMembersEvents.Pairwise (fun a b => a.timestamp ≤ b.timestamp) :=
  ⟨by decide, claim2_timeline_sorted 0 twoMembers twoMembersEvents (by decide)⟩

/-! ## Claim C3: elapsed-time computation -/

/-- Claim C3: for a member and a day `d` of its completion map (processed by
`daysEvents`), star 1's elapsed is its solve time minus the day's unlock
instant; when star 1 exists, star 2's elapsed is measured from star 1's solve
time; when star 1 is absent but star 2 present, star 2's elapsed is measured
from the unlock instant. -/
theorem claim3_elapsed (tz : Int) (m : Member) (d : Nat) (day : List (Nat × Star))
    (ds : List Nat) (es : List Report)
    (hday : lookupKey d m.completion_day_level = some day)
    (hes : daysEvents tz m (d :: ds) = some es) :
    ∃ rest, es = starFold (memberLabel m) d day (unlockInstant tz d) [1, 2] ++ rest ∧
      (∀ s1 s2, lookupKey 1 day = some s1 → lookupKey 2 day = some s2 →
        starFold (memberLabel m) d day (unlockInstant tz d) [1, 2] =
          [{ timestamp := s1.get_star_ts, elapsed := s1.get_star_ts - unlockInstant tz d,
             member := memberLabel m, star := starKey d 1 },
           { timestamp := s2.get_star_ts, elapsed := s2.get_star_ts - s1.get_star_ts,
             member := memberLabel m, star := starKey d 2 }]) ∧
      (∀ s1, lookupKey 1 day = some s1 → lookupKey 2 day = none →
        starFold (memberLabel m) d day (unlockInstant tz d) [1, 2] =
          [{ timestamp := s1.get_star_ts, elapsed := s1.get_star_ts - unlockInstant tz d,
             member := memberLabel m, star := starKey d 1 }]) ∧
      (∀ s2, lookupKey 1 day = none → lookupKey 2 day = some s2 →
        starFold (memberLabel m) d day (unlockInstant tz d) [1, 2] =
          [{ timestamp := s2.get_star_ts, elapsed := s2.get_star_ts - unlockInstant tz d,
             member := memberLabel m, star := starKey d 2 }]) := by
  simp only [daysEvents, hday] at hes
  cases hval : validDecemberDay d with
  | false => rw [hval] at hes; simp at hes
  | true =>
    rw [hval] at hes
    simp only [if_true] at hes
    cases hrest : daysEvents tz m ds with
    | none => rw [hrest] at hes; simp at hes
    | some es' =>
      rw [hrest] at hes
      simp only [Option.some.injEq] at hes
      refine ⟨es', hes.symm, ?_, ?_, ?_⟩
      · intro s1 s2 h1 h2
        simp [starFold, h1, h2]
      · intro s1 h1 h2
        simp [starFold, h1, h2]
      · intro s2 h1 h2
        simp [starFold, h1, h2]

/-- Witness for C3: both stars of day 5, solved 10 and 25 minutes after the
06:00 unlock; star 2's elapsed is the 15 minutes since star 1. -/
theorem claim3_witness :
    starFold (memberLabel bothStarsMember) 5
        [(1, { get_star_ts := 1764915000 }), (2, { get_star_ts := 1764915900 })]
        (unlockInstant 0 5) [1, 2] =
      [{ timestamp := 1764915000, elapsed := 600, member := "Alice", star := "05-1" },
       { timestamp := 1764915900, elapsed := 900, member := "Alice", star := "05-2" }] := by
  obtain ⟨rest, -, h12, -, -⟩ :=
    claim3_elapsed 0 bothStarsMember 5
      [(1, { get_star_ts := 1764915000 }), (2, { get_star_ts := 1764915900 })] []
      [{ timestamp := 1764915000, elapsed := 600, member := "Alice", star := "05-1" },
       { timestamp := 1764915900, elapsed := 900, member := "Alice", star := "05-2" }]
      rfl (by decide)
  rw [h12 { get_star_ts := 1764915000 } { get_star_ts := 1764915900 } rfl rfl]
  decide

/-! ## Claim C8: idempotence -/

/-- Claim C8: reconstruction plus scoring is a pure function of the snapshot —
running it twice on the same unchanged member map yields identical event
sequences and identical scored events and per-member totals. -/
theorem claim8_idempotent (tz : Int) (members : List (String × Member)) :
    timeline tz members = timeline tz members ∧
    reportRun tz members = reportRun tz members :=
  ⟨rfl, rfl⟩

/-! ## Star-key distinctness

The scoring pool is keyed by the formatted string `format!("{:02}-{}", d, s)`.
On the day range the program can actually reach without panicking (`d < 32`)
these strings are distinct across distinct `(day, star)` pairs. -/

theorem starKey_ne_same_day : ∀ d, d < 32 → starKey d 1 ≠ starKey d 2 := by decide

theorem starKey_ne_cross_day : ∀ d1, d1 < 32 → ∀ d2, d2 < 32 → d1 ≠ d2 →
    starKey d1 1 ≠ starKey d2 1 ∧ starKey d1 1 ≠ starKey d2 2 ∧
    starKey d1 2 ≠ starKey d2 1 ∧ starKey d1 2 ≠ starKey d2 2 := by decide

theorem validDecemberDay_lt (d : Nat) (h : validDecemberDay d = true) : d < 32 := by
  simp only [validDecemberDay, Bool.and_eq_true, decide_eq_true_eq] at h
  omega

/-! ## Each member contributes at most one event per star key -/

/-- Every event emitted by the day-5/star loop for day `d` carries the star
key of star 1 or star 2 of that day. -/
theorem starFold_two_star (label : String) (d : Nat) (day : List (Nat × Star))
    (start : Int) (e : Report) (he : e ∈ starFold label d day start [1, 2]) :
    e.star = starKey d 1 ∨ e.star = starKey d 2 := by
  cases h1 : lookupKey 1 day <;> cases h2 : lookupKey 2 day <;>
    simp only [starFold, h1, h2, List.mem_cons, List.not_mem_nil, or_false] at he <;>
    rcases he with rfl | rfl <;> simp

/-- One day's emitted events have pairwise distinct star keys. -/
theorem starFold_two_nodup (label : String) (d : Nat) (day : List (Nat × Star))
    (start : Int) (hd : d < 32) :
    ((starFold label d day start [1, 2]).map (fun e => e.star)).Nodup := by
  cases h1 : lookupKey 1 day <;> cases h2 : lookupKey 2 day <;>
    simp [starFold, h1, h2, starKey_ne_same_day d hd]

/-- Every event emitted for a member's day list carries the star key of one of
the two stars of some valid day of the list. -/
theorem daysEvents_star_mem (tz : Int) (m : Member) :
    ∀ (ds : List Nat) (es : List Report), daysEvents tz m ds = some es →
      ∀ e ∈ es, ∃ d ∈ ds, validDecemberDay d = true ∧
        (e.star = starKey d 1 ∨ e.star = starKey d 2)
  | [], es, h, e, he => by
    cases h
    cases he
  | d :: rest, es, h, e, he => by
    simp only [daysEvents] at h
    cases hday : lookupKey d m.completion_day_level with
    | none => rw [hday] at h; cases h
    | some day =>
      rw [hday] at h
      cases hval : validDecemberDay d with
      | false => rw [hval] at h; simp at h
      | true =>
        rw [hval] at h
        simp only [if_true] at h
        cases hrest : daysEvents tz m rest with
        | none => rw [hrest] at h; cases h
        | some es' =>
          rw [hrest] at h
          simp only [Option.some.injEq] at h
          subst h
          rcases List.mem_append.mp he with hA | hB
          · exact ⟨d, List.mem_cons_self d rest, hval,
              starFold_two_star (memberLabel m) d day (unlockInstant tz d) e hA⟩
          · obtain ⟨d', hd', hv', hs'⟩ := daysEvents_star_mem tz m rest es' hrest e hB
            exact ⟨d', List.mem_cons_of_mem d hd', hv', hs'⟩

/-- For a duplicate-free day list, all events a member emits have pairwise
distinct star keys: each member contributes at most one completion per
`(day, star)` pair. -/
theorem daysEvents_star_nodup (tz : Int) (m : Member) :
    ∀ (ds : List Nat) (es : List Report), ds.Nodup → daysEvents tz m ds = some es →
      (es.map (fun e => e.star)).Nodup
  | [], es, _, h => by
    cases h
    simp
  | d :: rest, es, hnd, h => by
    simp only [daysEvents] at h
    cases hday : lookupKey d m.completion_day_level with
    | none => rw [hday] at h; cases h
    | some day =>
      rw [hday] at h
      cases hval : validDecemberDay d with
      | false => rw [hval] at h; simp at h
      | true =>
        rw [hval] at h
        simp only [if_true] at h
        cases hrest : daysEvents tz m rest with
        | none => rw [hrest] at h; cases h
        | some es' =>
          rw [hrest] at h
          simp only [Option.some.injEq] at h
          subst h
          rw [List.map_append]
          rw [List.nodup_append]
          simp only [List.nodup_cons] at hnd
          refine ⟨starFold_two_nodup (memberLabel m) d day (unlockInstant tz d)
              (validDecemberDay_lt d hval), daysEvents_star_nodup tz m rest es' hnd.2 hrest, ?_⟩
          intro a haA haB
          obtain ⟨e, heA, hea⟩ := List.mem_map.mp haA
          obtain ⟨e', heB, hea'⟩ := List.mem_map.mp haB
          obtain ⟨d', hd', hv', hs'⟩ := daysEvents_star_mem tz m rest es' hrest e' heB
          have hdd : d ≠ d' := fun hdeq => hnd.1 (hdeq ▸ hd')
          have hcross := starKey_ne_cross_day d (validDecemberDay_lt d hval)
            d' (validDecemberDay_lt d' hv') hdd
          have hsA := starFold_two_star (memberLabel m) d day (unlockInstant tz d) e heA
          rw [hea] at hsA
          rw [hea'] at hs'
          rcases hsA with hA1 | hA2 <;> rcases hs' with hB1 | hB2
          · exact hcross.1 (hA1 ▸ hB1 ▸ rfl)
          · exact hcross.2.1 (hA1 ▸ hB2 ▸ rfl)
          · exact hcross.2.2.1 (hA2 ▸ hB1 ▸ rfl)
          · exact hcross.2.2.2 (hA2 ▸ hB2 ▸ rfl)

/-- A list of events with pairwise distinct star keys has at most one event
per star key. -/
theorem filter_star_le_one (K : String) :
    ∀ l : List Report, (l.map (fun e => e.star)).Nodup →
      (l.filter (fun e => e.star == K)).length ≤ 1
  | [], _ => by simp
  | e :: t, hn => by
    simp only [List.map_cons, List.nodup_cons] at hn
    by_cases hK : e.star = K
    · have hnil : t.filter (fun e' => e'.star == K) = [] := by
        rw [List.filter_eq_nil_iff]
        intro x hx hxK
        rw [beq_iff_eq] at hxK
        exact hn.1 (by
          rw [hK, ← hxK]
          exact List.mem_map_of_mem (fun e' => e'.star) hx)
      simp [List.filter_cons, hK, hnil]
    · simp only [List.filter_cons, beq_eq_false_iff_ne, hK]
      rw [if_neg (by simp [hK])]
      exact filter_star_le_one K t hn.2

/-- Across the whole member list, at most `ms.length` events share one star
key (each member contributes at most one). -/
theorem membersEvents_filter_le (tz : Int) :
    ∀ (ms : List Member) (es : List Report), membersEvents tz ms = some es →
      ∀ K, (es.filter (fun e => e.star == K)).length ≤ ms.length
  | [], es, h, K => by
    cases h
    simp
  | m :: rest, es, h, K => by
    simp only [membersEvents] at h
    cases hm : daysEvents tz m (sortedKeys m.completion_day_level) with
    | none => rw [hm] at h; cases h
    | some esM =>
      rw [hm] at h
      cases hr : membersEvents tz rest with
      | none => rw [hr] at h; cases h
      | some esR =>
        rw [hr] at h
        simp only [Option.some.injEq] at h
        subst h
        rw [List.filter_append, List.length_append, List.length_cons]
        have h1 : (esM.filter (fun e => e.star == K)).length ≤ 1 :=
          filter_star_le_one K esM
            (daysEvents_star_nodup tz m (sortedKeys m.completion_day_level) esM
              (List.nodup_dedup _) hm)
        have h2 := membersEvents_filter_le tz rest esR hr K
        omega

/-- In a produced timeline, at most `members.length` events share a star key:
the per-star scoring pool is consumed at most `max_score` times. -/
theorem timeline_filter_le (tz : Int) (members : List (String × Member))
    (events : List Report) (h : timeline tz members = some events) (K : String) :
    (events.filter (fun e => e.star == K)).length ≤ members.length := by
  unfold timeline at h
  cases hm : membersEvents tz (members.map Prod.snd) with
  | none => simp only [hm] at h; cases h
  | some l =>
    simp only [hm] at h
    cases h
    rw [((List.perm_insertionSort reportLE l).filter (fun e => e.star == K)).length_eq]
    simpa using membersEvents_filter_le tz (members.map Prod.snd) l hm K

/-! ## The scoring loop -/

theorem rangeMapStep (max_score c0 n : Nat) :
    (List.range (n + 1)).map (fun i => max_score - (c0 + i)) =
      (max_score - c0) :: (List.range n).map (fun i => max_score - ((c0 + 1) + i)) := by
  rw [List.range_succ_eq_map, List.map_cons, List.map_map]
  have h2 : (List.range n).map ((fun i => max_score - (c0 + i)) ∘ Nat.succ)
      = (List.range n).map (fun i => max_score - ((c0 + 1) + i)) :=
    List.map_congr_left fun a _ => by
      simp only [Function.comp_apply]
      omega
  rw [h2]
  norm_num

/-- Invariant-based characterisation of the scoring loop of `report`: if the
score map `st` records, for every star key `K`, the value
`max_score + 1 - c K` whenever `c K > 0` events with key `K` have already been
consumed (and no entry otherwise), and no key's total count exceeds
`max_score`, then the loop succeeds and assigns to the events of each key `K`,
in order, the scores `max_score - c K`, `max_score - c K - 1`, …. -/
theorem reportLoop_spec (max_score : Nat) :
    ∀ (events : List Report) (c : String → Nat) (st totals : List (String × Nat)),
    (∀ K, lookupKey K st = if c K = 0 then none else some (max_score + 1 - c K)) →
    (∀ K, c K + (events.filter (fun e => e.star == K)).length ≤ max_score) →
    ∃ out t, reportLoop max_score events st totals = some (out, t) ∧
      ∀ K, (out.filter (fun p => p.1.star == K)).map Prod.snd =
        (List.range ((events.filter (fun e => e.star == K)).length)).map
          (fun i => max_score - (c K + i))
  | [], c, st, totals, hst, hbound => ⟨[], totals, rfl, by simp⟩
  | e :: rest, c, st, totals, hst, hbound => by
    have hbK := hbound e.star
    rw [List.filter_cons, if_pos (by simp)] at hbK
    rw [List.length_cons] at hbK
    -- the assigned score is max_score - c e.star, and the new score-map state
    -- corresponds to the count function bumped at e.star
    have hstep : ∃ st', scoreStep max_score st e.star = some (max_score - c e.star, st') ∧
        ∀ K, lookupKey K st' =
          if (if K = e.star then c K + 1 else c K) = 0 then none
          else some (max_score + 1 - (if K = e.star then c K + 1 else c K)) := by
      cases hc : c e.star with
      | zero =>
        have hlook : lookupKey e.star st = none := by
          rw [hst e.star, hc]
          rfl
        refine ⟨(e.star, max_score) :: st, by simp [scoreStep, hlook, hc], fun K => ?_⟩
        by_cases hK : K = e.star
        · subst hK
          simp only [lookupKey_cons, if_pos rfl, hc]
          norm_num
        · simp only [lookupKey_cons]
          rw [if_neg (fun h => hK h.symm), if_neg hK, hst K]
      | succ n =>
        have hlook : lookupKey e.star st = some (max_score - n) := by
          rw [hst e.star, hc]
          simp [Nat.succ_sub_succ]
        have hv0 : max_score - n ≠ 0 := by omega
        refine ⟨updateFirst e.star (fun v => v - 1) st,
          by simp [scoreStep, hlook, hv0, hc, Nat.sub_sub], fun K => ?_⟩
        by_cases hK : K = e.star
        · subst hK
          rw [lookupKey_updateFirst_self, hlook, if_pos rfl, if_neg (by omega)]
          simp only [Option.map_some']
          congr 1
          omega
        · rw [lookupKey_updateFirst_ne _ hK, hst K, if_neg hK]
    obtain ⟨st', hstep, hst'⟩ := hstep
    have hbound' : ∀ K, (if K = e.star then c K + 1 else c K) +
        (rest.filter (fun x => x.star == K)).length ≤ max_score := by
      intro K
      by_cases hK : K = e.star
      · subst hK
        rw [if_pos rfl]
        omega
      · rw [if_neg hK]
        have := hbound K
        rw [List.filter_cons, if_neg (by simp; exact fun h => hK h.symm)] at this
        exact this
    obtain ⟨out, t, hrun, hchar⟩ :=
      reportLoop_spec max_score rest (fun K => if K = e.star then c K + 1 else c K) st'
        (totalsStep totals e.member (max_score - c e.star)) hst' hbound'
    refine ⟨(e, max_score - c e.star) :: out, t, ?_, ?_⟩
    · simp only [reportLoop, hstep, hrun]
    · intro K
      by_cases hK : K = e.star
      · subst hK
        rw [List.filter_cons, if_pos (by simp), List.filter_cons, if_pos (by simp)]
        rw [List.length_cons, rangeMapStep, List.map_cons]
        have := hchar e.star
        rw [if_pos rfl] at this
        rw [this]
      · rw [List.filter_cons, if_neg (by simp; exact fun h => hK h.symm),
          List.filter_cons, if_neg (by simp; exact fun h => hK h.symm)]
        have := hchar K
        rw [if_neg hK] at this
        rw [this]

/-! ## Claim C1: score monotonic decay -/

/-- Claim C1: for every star key `K`, if `k` events with key `K` appear in the
chronological timeline, the scoring loop succeeds and assigns them, in order,
exactly the scores `max_score, max_score - 1, …, max_score - k + 1`, where
`max_score` is the total member count of the snapshot. -/
theorem claim1_score_decay (tz : Int) (members : List (String × Member))
    (events : List Report) (h : timeline tz members = some events) :
    ∃ out t, reportLoop members.length events [] [] = some (out, t) ∧
      ∀ K, (out.filter (fun p => p.1.star == K)).map Prod.snd =
        (List.range ((events.filter (fun e => e.star == K)).length)).map
          (fun i => members.length - i) := by
  obtain ⟨out, t, hrun, hchar⟩ :=
    reportLoop_spec members.length events (fun _ => 0) [] []
      (fun K => rfl) (fun K => by simpa using timeline_filter_le tz members events h K)
  refine ⟨out, t, hrun, fun K => ?_⟩
  simpa using hchar K

/-- Witness for C1: on the concrete two-member snapshot the two "05-1" events
receive the scores `[2, 1]` and the single "05-2" event the score `[2]`. -/
theorem claim1_witness :
    timeline 0 twoMembers = some twoMembersEvents ∧
    ∃ out t, reportLoop twoMembers.length twoMembersEvents [] [] = some (out, t) ∧
      ∀ K, (out.filter (fun p => p.1.star == K)).map Prod.snd =
        (List.range ((twoMembersEvents.filter (fun e => e.star == K)).length)).map
          (fun i => twoMembers.length - i) :=
  ⟨by decide, claim1_score_decay 0 twoMembers twoMembersEvents (by decide)⟩

/-! ## Claim C9: scores never reach zero, the pool never underflows -/

/-- Claim C9: since each member contributes at most one completion per
`(day, star)` pair, the scoring loop over a produced timeline never underflows
its pool counters (it returns `some`, the panic branch of the decrement being
unreachable) and every assigned score is at least 1. -/
theorem claim9_scores_at_least_one (tz : Int) (members : List (String × Member))
    (events : List Report) (h : timeline tz members = some events) :
    ∃ out t, reportLoop members.length events [] [] = some (out, t) ∧
      ∀ p ∈ out, 1 ≤ p.2 := by
  obtain ⟨out, t, hrun, hchar⟩ :=
    reportLoop_spec members.length events (fun _ => 0) [] []
      (fun K => rfl) (fun K => by simpa using timeline_filter_le tz members events h K)
  refine ⟨out, t, hrun, fun p hp => ?_⟩
  have hmem : p.2 ∈ (out.filter (fun q => q.1.star == p.1.star)).map Prod.snd :=
    List.mem_map_of_mem Prod.snd (List.mem_filter.mpr ⟨hp, by simp⟩)
  rw [hchar p.1.star] at hmem
  obtain ⟨i, hi, hpi⟩ := List.mem_map.mp hmem
  have hik := List.mem_range.mp hi
  have hk := timeline_filter_le tz members events h p.1.star
  omega

/-- Witness for C9: on the concrete two-member snapshot the loop succeeds and
every assigned score is positive. -/
theorem claim9_witness :
    timeline 0 twoMembers = some twoMembersEvents ∧
    ∃ out t, reportLoop twoMembers.length twoMembersEvents [] [] = some (out, t) ∧
      ∀ p ∈ out, 1 ≤ p.2 :=
  ⟨by decide, claim9_scores_at_least_one 0 twoMembers twoMembersEvents (by decide)⟩

end AocTimeline
